import Mathlib

/-!
Verification of the DeepLabV2 model assembly code
(paddleseg/models/deeplabv2.py) against its design specification.

The embedding models 4-dimensional tensors over the rationals, Paddle's
Conv2D layer (stride 1, NCHW) with dilation and zero padding, Python's
built-in sum over a list of tensors (which yields the integer 0 on an
empty list), bilinear interpolation, and the three layers defined in the
file: ASPPModule, DeepLabV2Head and DeepLabV2.  Fallible Python
operations (indexing, shape-checked tensor ops) return Option.
-/

/-- Shape of a 4-dimensional tensor: batch, channels, height, width. -/
structure Shape4 where
  n : ℕ
  c : ℕ
  h : ℕ
  w : ℕ
deriving DecidableEq, Repr

/-- A 4-dimensional tensor: a shape together with rational entries,
indexed as data batch channel row col (reads outside the shape are
irrelevant junk). -/
structure Tensor4 where
  shape : Shape4
  data : ℕ → ℕ → ℕ → ℕ → ℚ

instance : Inhabited Tensor4 := ⟨⟨⟨0, 0, 0, 0⟩, fun _ _ _ _ => 0⟩⟩

/-- A Python value that is either an int or a tensor: the possible
results of summing a list of tensors with the built-in sum. -/
inductive PyVal where
  | int : ℤ → PyVal
  | tensor : Tensor4 → PyVal

/-- Read a tensor entry at possibly negative (padded) spatial
coordinates: zero outside the spatial extent. -/
def Tensor4.atPad (x : Tensor4) (b c : ℕ) (r s : ℤ) : ℚ :=
  if 0 ≤ r ∧ r < (x.shape.h : ℤ) ∧ 0 ≤ s ∧ s < (x.shape.w : ℤ) then
    x.data b c r.toNat s.toNat
  else 0

/-- A 2-dimensional convolution layer (paddle.nn.Conv2D with stride 1,
square kernel, symmetric padding, NCHW layout). -/
structure Conv2D where
  in_channels : ℕ
  out_channels : ℕ
  kernel_size : ℕ
  dilation : ℕ
  padding : ℕ
  weight : ℕ → ℕ → ℕ → ℕ → ℚ
  bias : ℕ → ℚ

instance : Inhabited Conv2D := ⟨⟨0, 0, 0, 0, 0, fun _ _ _ _ => 0, fun _ => 0⟩⟩

/-- Spatial output extent of a stride-1 convolution:
inDim + 2*pad - dilation*(kernel-1). -/
def convOutDim (inDim pad dil k : ℕ) : ℕ :=
  inDim + 2 * pad - dil * (k - 1)

/-- Validity of applying a convolution to an input of the given shape:
the input channel count matches and the padded spatial extent is at
least the dilated kernel extent (the framework kernel raises
otherwise). -/
def convOK (cv : Conv2D) (s : Shape4) : Bool :=
  (s.c == cv.in_channels) &&
  decide (cv.dilation * (cv.kernel_size - 1) + 1 ≤ s.h + 2 * cv.padding) &&
  decide (cv.dilation * (cv.kernel_size - 1) + 1 ≤ s.w + 2 * cv.padding)

/-- Output shape of a convolution on an input of the given shape: batch
preserved, channels become out_channels, spatial extents shrink by the
dilated kernel minus the padding. -/
def convOutShape (cv : Conv2D) (s : Shape4) : Shape4 :=
  ⟨s.n, cv.out_channels,
   convOutDim s.h cv.padding cv.dilation cv.kernel_size,
   convOutDim s.w cv.padding cv.dilation cv.kernel_size⟩

/-- One entry of a convolution output: bias plus the weighted sum over
input channels and kernel taps of the zero-padded input. -/
def convEntry (cv : Conv2D) (x : Tensor4) (b o i j : ℕ) : ℚ :=
  cv.bias o +
    ((List.range cv.in_channels).map (fun c =>
      ((List.range cv.kernel_size).map (fun kh =>
        ((List.range cv.kernel_size).map (fun kw =>
          cv.weight o c kh kw *
            x.atPad b c ((i : ℤ) + kh * cv.dilation - cv.padding)
                      ((j : ℤ) + kw * cv.dilation - cv.padding))).sum)).sum)).sum

/-- Apply a Conv2D layer to a tensor (stride 1, zero padding).  Fails
when convOK does not hold of the input shape. -/
def conv2dApply (cv : Conv2D) (x : Tensor4) : Option Tensor4 :=
  if convOK cv x.shape then
    some { shape := convOutShape cv x.shape, data := convEntry cv x }
  else none

/-- Elementwise addition of two tensors; fails on a shape mismatch (the
framework raises there; broadcasting never applies to the shapes this
model produces). -/
def addT (a b : Tensor4) : Option Tensor4 :=
  if a.shape = b.shape then
    some { shape := a.shape, data := fun n c i j => a.data n c i j + b.data n c i j }
  else none

/-- Python's built-in sum of a list of tensors: starts from the int 0,
so the empty list yields the int 0 and a nonempty list folds tensor
addition from its head. -/
def pySum : List Tensor4 → Option PyVal
  | [] => some (PyVal.int 0)
  | t :: ts => (List.foldlM addT t ts).map PyVal.tensor

/-- Evaluate f over a list in order, failing as soon as f fails: the
semantics of a Python list comprehension over fallible calls. -/
def mapOpt (f : α → Option β) : List α → Option (List β)
  | [] => some []
  | a :: l => do
    let b ← f a
    let bs ← mapOpt f l
    pure (b :: bs)

/-- The ASPPModule layer: stored alignment flag, data format and the
list of dilated convolution branches. -/
structure ASPPModule where
  align_corners : Bool
  data_format : String
  aspp_blocks : List Conv2D

/-- ASPPModule.__init__: one Conv2D per dilation ratio with kernel 3,
dilation equal to the ratio and padding 0 when the ratio is 1 and the
ratio otherwise; the framework's freshly initialized weight and bias of
branch k are iw k and ib k, after which the explicit zeroing loop
overwrites every branch bias with zeros. -/
def asppInit (aspp_ratios : List ℕ) (in_channels out_channels : ℕ)
    (align_corners : Bool) (data_format : String)
    (iw : ℕ → ℕ → ℕ → ℕ → ℕ → ℚ) (ib : ℕ → ℕ → ℚ) : ASPPModule :=
  let blocks := (List.range aspp_ratios.length).map (fun k =>
    let rk := aspp_ratios.getD k 0
    { in_channels := in_channels
      out_channels := out_channels
      kernel_size := 3
      dilation := rk
      padding := if rk = 1 then 0 else rk
      weight := iw k
      bias := ib k : Conv2D })
  { align_corners := align_corners
    data_format := data_format
    aspp_blocks := blocks.map (fun cv => { cv with bias := fun _ => 0 }) }

/-- The per-branch convolution outputs of ASPPModule.forward, in order:
the list comprehension over aspp_blocks. -/
def branchOutputs (m : ASPPModule) (x : Tensor4) : Option (List Tensor4) :=
  mapOpt (fun cv => conv2dApply cv x) m.aspp_blocks

/-- ASPPModule.forward: the Python sum of every branch applied to the
same input. -/
def asppForward (m : ASPPModule) (x : Tensor4) : Option PyVal := do
  let ys ← branchOutputs m x
  pySum ys

/-- The DeepLabV2Head layer: the ASPP module and the configured
backbone indices. -/
structure DeepLabV2Head where
  aspp : ASPPModule
  backbone_indices : List ℕ

/-- DeepLabV2Head.__init__: builds the ASPP module over the first
backbone channel count; fails (IndexError) when the channel list is
empty. -/
def headInit (num_classes : ℕ) (backbone_indices : List ℕ)
    (backbone_channels : List ℕ) (aspp_ratios : List ℕ)
    (align_corners : Bool)
    (iw : ℕ → ℕ → ℕ → ℕ → ℕ → ℚ) (ib : ℕ → ℕ → ℚ) : Option DeepLabV2Head := do
  let c0 ← backbone_channels.get? 0
  pure { aspp := asppInit aspp_ratios c0 num_classes align_corners "NCHW" iw ib
         backbone_indices := backbone_indices }

/-- DeepLabV2Head.forward: select the feature map at the first
configured backbone index and pass it through ASPP. -/
def headForward (hd : DeepLabV2Head) (feat_list : List Tensor4) : Option PyVal := do
  let i ← hd.backbone_indices.get? 0
  let x ← feat_list.get? i
  asppForward hd.aspp x

/-- The external backbone: its per-stage channel counts and its forward
function producing a list of feature maps. -/
structure Backbone where
  feat_channels : List ℕ
  forward : Tensor4 → List Tensor4

/-- The DeepLabV2 model: backbone, head, alignment flag. -/
structure DeepLabV2 where
  backbone : Backbone
  head : DeepLabV2Head
  align_corners : Bool

/-- DeepLabV2.__init__ (without the optional weight load): reads
backbone.feat_channels at every configured index (IndexError on an
out-of-range index) and builds the head. -/
def deepLabV2Init (num_classes : ℕ) (backbone : Backbone)
    (backbone_indices : List ℕ) (aspp_ratios : List ℕ)
    (align_corners : Bool)
    (iw : ℕ → ℕ → ℕ → ℕ → ℕ → ℚ) (ib : ℕ → ℕ → ℚ) : Option DeepLabV2 := do
  let backbone_channels ← mapOpt (fun i => backbone.feat_channels.get? i) backbone_indices
  let hd ← headInit num_classes backbone_indices backbone_channels aspp_ratios
    align_corners iw ib
  pure { backbone := backbone, head := hd, align_corners := align_corners }

/-- Source coordinate of bilinear interpolation for output index i,
under either corner-alignment convention (clamped at 0 below). -/
def srcIdx (inN outN : ℕ) (ac : Bool) (i : ℕ) : ℚ :=
  if ac then
    if outN ≤ 1 then 0 else (i : ℚ) * ((inN : ℚ) - 1) / ((outN : ℚ) - 1)
  else
    max 0 (((i : ℚ) + 1/2) * (inN : ℚ) / (outN : ℚ) - 1/2)

/-- One interpolated entry: the weighted average of the four spatial
neighbours of the source coordinate. -/
def interpData (t : Tensor4) (outH outW : ℕ) (ac : Bool) (b c i j : ℕ) : ℚ :=
  let sh := srcIdx t.shape.h outH ac i
  let sw := srcIdx t.shape.w outW ac j
  let h0 := (Rat.floor sh).toNat
  let w0 := (Rat.floor sw).toNat
  let h1 := min (h0 + 1) (t.shape.h - 1)
  let w1 := min (w0 + 1) (t.shape.w - 1)
  let lh := sh - (h0 : ℚ)
  let lw := sw - (w0 : ℚ)
  (1 - lh) * (1 - lw) * t.data b c h0 w0 + (1 - lh) * lw * t.data b c h0 w1 +
    lh * (1 - lw) * t.data b c h1 w0 + lh * lw * t.data b c h1 w1

/-- F.interpolate with mode bilinear on an NCHW tensor: batch and
channel extents are preserved, the spatial extents become the requested
ones. -/
def interp (t : Tensor4) (outH outW : ℕ) (ac : Bool) : Tensor4 :=
  { shape := ⟨t.shape.n, t.shape.c, outH, outW⟩
    data := interpData t outH outW ac }

/-- DeepLabV2.forward: run the backbone, run the head, bilinearly
upsample the logits to the input's spatial size, return them as a
one-element list.  Fails when the head fails or when the head produced
the int 0 instead of a tensor (F.interpolate raises on an int). -/
def modelForward (M : DeepLabV2) (x : Tensor4) : Option (List Tensor4) := do
  let feat_list := M.backbone.forward x
  let v ← headForward M.head feat_list
  match v with
  | PyVal.int _ => none
  | PyVal.tensor t => pure [interp t x.shape.h x.shape.w M.align_corners]

/-- A state dict: parameter names with their flattened values. -/
def StateDict := List (String × List ℚ)

/-- The structural signature of a state dict: each parameter's name and
size, in order. -/
def sdSig (sd : StateDict) : List (String × ℕ) :=
  sd.map (fun p => (p.1, p.2.length))

/-- Modelled from the spec: utils.load_entire_model, called by
DeepLabV2.init_weight, is not part of this repository's source.  Per
the spec it consumes a checkpoint file at a path; on success it
replaces all parameters with the persisted values; on a missing file or
a structural (key or shape) mismatch it raises an error to the caller.
The file system is abstracted to the optional state dict found at the
path. -/
def load_entire_model (model : StateDict) (file : Option StateDict) :
    Except String StateDict :=
  match file with
  | none => Except.error "pretrained model file does not exist"
  | some ckpt =>
    if sdSig ckpt = sdSig model then Except.ok ckpt
    else Except.error "checkpoint does not match the model structurally"

/-- The shape of a PyVal, when it is a tensor. -/
def pvShape : PyVal → Option Shape4
  | PyVal.int _ => none
  | PyVal.tensor t => some t.shape

/-- Example framework-default weight initializer (one per branch). -/
def exW : ℕ → ℕ → ℕ → ℕ → ℕ → ℚ := fun _ _ _ _ _ => 1

/-- Example framework-default bias initializer (one per branch),
deliberately nonzero so the explicit zeroing step is observable. -/
def exB : ℕ → ℕ → ℚ := fun _ _ => 1

/-- Example input tensor of shape (1, 1, 3, 3). -/
def exX : Tensor4 := ⟨⟨1, 1, 3, 3⟩, fun _ _ i j => (i : ℚ) + j⟩

/-- Example input tensor of the same shape as exX but other data. -/
def exY : Tensor4 := ⟨⟨1, 1, 3, 3⟩, fun _ _ _ _ => 5⟩

/-- Example backbone: one stage of one channel, identity features. -/
def exBackbone : Backbone := ⟨[1], fun x => [x]⟩

/-- Example ASPP module with a single ratio-2 branch over one channel. -/
def exAspp : ASPPModule := asppInit [2] 1 1 false "NCHW" exW exB

/-- Example head wrapping exAspp, selecting feature index 0. -/
def exHead : DeepLabV2Head := ⟨exAspp, [0]⟩

/-- Example DeepLabV2 model over exBackbone and exHead. -/
def exM : DeepLabV2 := ⟨exBackbone, exHead, false⟩

/-- The branch outputs of exAspp on exX (a one-element list). -/
def exYs : List Tensor4 := (branchOutputs exAspp exX).get rfl

/-- The output list of the example model's forward pass on exX. -/
def exOut : List Tensor4 := (modelForward exM exX).get rfl

/-- Example model state dict (two parameters). -/
def exSD : StateDict := [("aspp.weight", [0, 0]), ("aspp.bias", [0])]

/-- Example checkpoint: same names and sizes as exSD, other values. -/
def exCkpt : StateDict := [("aspp.weight", [5, 6]), ("aspp.bias", [7])]

/-! Helper lemmas about the embedding. -/

/-- Unfolding equation for deepLabV2Init. -/
theorem deepLabV2Init_eq (num_classes : ℕ) (backbone : Backbone)
    (backbone_indices aspp_ratios : List ℕ) (align_corners : Bool)
    (iw : ℕ → ℕ → ℕ → ℕ → ℕ → ℚ) (ib : ℕ → ℕ → ℚ) :
    deepLabV2Init num_classes backbone backbone_indices aspp_ratios align_corners iw ib =
      (mapOpt (fun i => backbone.feat_channels.get? i) backbone_indices).bind
        (fun backbone_channels =>
          (headInit num_classes backbone_indices backbone_channels aspp_ratios
              align_corners iw ib).bind
            (fun hd => some ⟨backbone, hd, align_corners⟩)) := rfl

/-- Unfolding equation for headInit. -/
theorem headInit_eq (num_classes : ℕ) (backbone_indices backbone_channels aspp_ratios : List ℕ)
    (align_corners : Bool) (iw : ℕ → ℕ → ℕ → ℕ → ℕ → ℚ) (ib : ℕ → ℕ → ℚ) :
    headInit num_classes backbone_indices backbone_channels aspp_ratios align_corners iw ib =
      (backbone_channels.get? 0).bind
        (fun c0 => some ⟨asppInit aspp_ratios c0 num_classes align_corners "NCHW" iw ib,
          backbone_indices⟩) := rfl

/-- Unfolding equation for headForward. -/
theorem headForward_eq (hd : DeepLabV2Head) (feat_list : List Tensor4) :
    headForward hd feat_list =
      (hd.backbone_indices.get? 0).bind
        (fun i => (feat_list.get? i).bind (fun x => asppForward hd.aspp x)) := rfl

/-- Unfolding equation for asppForward. -/
theorem asppForward_eq (m : ASPPModule) (x : Tensor4) :
    asppForward m x = (branchOutputs m x).bind pySum := rfl

/-- Unfolding equation for modelForward. -/
theorem modelForward_eq (M : DeepLabV2) (x : Tensor4) :
    modelForward M x =
      (headForward M.head (M.backbone.forward x)).bind
        (fun v => match v with
          | PyVal.int _ => none
          | PyVal.tensor t =>
            some [interp t x.shape.h x.shape.w M.align_corners]) := rfl

theorem mapOpt_nil (f : α → Option β) : mapOpt f [] = some [] := rfl

theorem mapOpt_cons (f : α → Option β) (a : α) (l : List α) :
    mapOpt f (a :: l) =
      (f a).bind (fun b => (mapOpt f l).bind (fun bs => some (b :: bs))) := rfl

theorem mapOpt_length {f : α → Option β} :
    ∀ {l : List α} {ys : List β}, mapOpt f l = some ys → ys.length = l.length := by
  intro l
  induction l with
  | nil =>
    intro ys h
    rw [mapOpt_nil] at h
    cases h
    rfl
  | cons a l ih =>
    intro ys h
    rw [mapOpt_cons] at h
    cases hfa : f a with
    | none => rw [hfa] at h; cases h
    | some b =>
      rw [hfa] at h
      cases hml : mapOpt f l with
      | none => rw [hml] at h; cases h
      | some bs =>
        rw [hml] at h
        cases h
        simp [ih hml]

theorem mapOpt_get? {f : α → Option β} :
    ∀ {l : List α} {ys : List β}, mapOpt f l = some ys →
      ∀ k a, l.get? k = some a → ys.get? k = f a := by
  intro l
  induction l with
  | nil =>
    intro ys h k a hka
    simp at hka
  | cons x l ih =>
    intro ys h k a hka
    rw [mapOpt_cons] at h
    cases hfa : f x with
    | none => rw [hfa] at h; cases h
    | some b =>
      rw [hfa] at h
      cases hml : mapOpt f l with
      | none => rw [hml] at h; cases h
      | some bs =>
        rw [hml] at h
        cases h
        cases k with
        | zero =>
          rw [List.get?_cons_zero] at hka
          cases hka
          rw [List.get?_cons_zero]
          exact hfa.symm
        | succ k =>
          rw [List.get?_cons_succ] at hka
          rw [List.get?_cons_succ]
          exact ih hml k a hka

theorem mapOpt_none {f : α → Option β} :
    ∀ {l : List α} {a : α}, a ∈ l → f a = none → mapOpt f l = none := by
  intro l
  induction l with
  | nil =>
    intro a ha
    cases ha
  | cons x l ih =>
    intro a ha hfa
    rw [mapOpt_cons]
    rcases List.mem_cons.mp ha with h | h
    · subst h
      rw [hfa]
      rfl
    · cases hfx : f x with
      | none => rfl
      | some b => rw [ih h hfa]; rfl

theorem addT_eq_some {a b ab : Tensor4} (h : addT a b = some ab) :
    a.shape = b.shape ∧ ab.shape = a.shape ∧
      ∀ n c i j, ab.data n c i j = a.data n c i j + b.data n c i j := by
  unfold addT at h
  split at h
  · cases h
    exact ⟨by assumption, rfl, fun n c i j => rfl⟩
  · cases h

theorem foldlM_addT_spec :
    ∀ {ts : List Tensor4} {a t : Tensor4}, List.foldlM addT a ts = some t →
      t.shape = a.shape ∧
        ∀ n c i j, t.data n c i j =
          a.data n c i j + (ts.map (fun y => y.data n c i j)).sum := by
  intro ts
  induction ts with
  | nil =>
    intro a t h
    rw [List.foldlM_nil] at h
    cases h
    exact ⟨rfl, fun n c i j => by simp⟩
  | cons b ts ih =>
    intro a t h
    rw [List.foldlM_cons] at h
    cases hab : addT a b with
    | none => rw [hab] at h; cases h
    | some ab =>
      rw [hab] at h
      obtain ⟨_, habsh, habdata⟩ := addT_eq_some hab
      obtain ⟨hsh, hdata⟩ := ih h
      refine ⟨hsh.trans habsh, fun n c i j => ?_⟩
      rw [hdata n c i j, habdata n c i j]
      simp [add_assoc]

theorem pySum_tensor_spec {ys : List Tensor4} {t : Tensor4}
    (h : pySum ys = some (PyVal.tensor t)) :
    ys ≠ [] ∧ t.shape = ys.headI.shape ∧
      ∀ n c i j, t.data n c i j = (ys.map (fun y => y.data n c i j)).sum := by
  cases ys with
  | nil =>
    rw [pySum] at h
    cases h
  | cons y0 ts =>
    rw [pySum] at h
    cases hf : List.foldlM addT y0 ts with
    | none => rw [hf] at h; cases h
    | some t0 =>
      rw [hf] at h
      cases h
      obtain ⟨hsh, hdata⟩ := foldlM_addT_spec hf
      refine ⟨by simp, hsh, fun n c i j => ?_⟩
      rw [hdata n c i j]
      simp

theorem conv2dApply_some_shape {cv : Conv2D} {x y : Tensor4}
    (h : conv2dApply cv x = some y) :
    y.shape = convOutShape cv x.shape := by
  unfold conv2dApply at h
  split at h
  · cases h
    rfl
  · cases h

theorem asppInit_blocks_length
    (r : List ℕ) (inCh outCh : ℕ) (ac : Bool) (df : String)
    (iw : ℕ → ℕ → ℕ → ℕ → ℕ → ℚ) (ib : ℕ → ℕ → ℚ) :
    (asppInit r inCh outCh ac df iw ib).aspp_blocks.length = r.length := by
  simp [asppInit]

theorem asppInit_blocks_get?
    {r : List ℕ} {k : ℕ} (inCh outCh : ℕ) (ac : Bool) (df : String)
    (iw : ℕ → ℕ → ℕ → ℕ → ℕ → ℚ) (ib : ℕ → ℕ → ℚ) (hk : k < r.length) :
    (asppInit r inCh outCh ac df iw ib).aspp_blocks.get? k =
      some { in_channels := inCh
             out_channels := outCh
             kernel_size := 3
             dilation := r.getD k 0
             padding := if r.getD k 0 = 1 then 0 else r.getD k 0
             weight := iw k
             bias := fun _ => 0 } := by
  simp [asppInit, List.get?_map, List.get?_range, hk]

theorem conv2dApply_shape_congr {cv : Conv2D} {x y : Tensor4}
    (h : x.shape = y.shape) :
    (conv2dApply cv x).map Tensor4.shape = (conv2dApply cv y).map Tensor4.shape := by
  by_cases hc : convOK cv y.shape = true
  · rw [conv2dApply, conv2dApply, h, if_pos hc, if_pos hc]
    simp [convOutShape]
  · rw [conv2dApply, conv2dApply, h, if_neg hc, if_neg hc]

theorem mapOpt_shape_congr {f g : α → Option Tensor4} :
    ∀ {l : List α},
      (∀ a ∈ l, (f a).map Tensor4.shape = (g a).map Tensor4.shape) →
      (mapOpt f l).map (List.map Tensor4.shape) =
        (mapOpt g l).map (List.map Tensor4.shape) := by
  intro l
  induction l with
  | nil => intro _; rfl
  | cons a l ih =>
    intro h
    have ha := h a (List.mem_cons_self a l)
    have hl := ih (fun b hb => h b (List.mem_cons_of_mem a hb))
    rw [mapOpt_cons, mapOpt_cons]
    cases hfa : f a with
    | none =>
      rw [hfa] at ha
      cases hga : g a with
      | none => rfl
      | some b' => rw [hga] at ha; cases ha
    | some b =>
      rw [hfa] at ha
      cases hga : g a with
      | none => rw [hga] at ha; cases ha
      | some b' =>
        rw [hga] at ha
        have hbb : b.shape = b'.shape := by
          simpa using ha
        cases hfl : mapOpt f l with
        | none =>
          rw [hfl] at hl
          cases hgl : mapOpt g l with
          | none => rfl
          | some bs' => rw [hgl] at hl; cases hl
        | some bs =>
          rw [hfl] at hl
          cases hgl : mapOpt g l with
          | none => rw [hgl] at hl; cases hl
          | some bs' =>
            rw [hgl] at hl
            have hbs : bs.map Tensor4.shape = bs'.map Tensor4.shape := by
              simpa using hl
            simp [hbb, hbs]

theorem foldlM_addT_shape_congr :
    ∀ {ts ts' : List Tensor4} {a a' : Tensor4},
      a.shape = a'.shape → ts.map Tensor4.shape = ts'.map Tensor4.shape →
      (List.foldlM addT a ts).map Tensor4.shape =
        (List.foldlM addT a' ts').map Tensor4.shape := by
  intro ts
  induction ts with
  | nil =>
    intro ts' a a' ha hts
    cases ts' with
    | nil => simpa using ha
    | cons b' ts' => cases hts
  | cons b ts ih =>
    intro ts' a a' ha hts
    cases ts' with
    | nil => cases hts
    | cons b' ts'' =>
      obtain ⟨hb, hts2⟩ :
          b.shape = b'.shape ∧ ts.map Tensor4.shape = ts''.map Tensor4.shape := by
        simpa using hts
      rw [List.foldlM_cons, List.foldlM_cons]
      by_cases hab : a.shape = b.shape
      · have hab' : a'.shape = b'.shape := by rw [← ha, ← hb]; exact hab
        rw [addT, addT, if_pos hab, if_pos hab']
        exact ih ha hts2
      · have hab' : ¬a'.shape = b'.shape := by rw [← ha, ← hb]; exact hab
        rw [addT, addT, if_neg hab, if_neg hab']
        rfl

theorem pySum_shape_congr {xs xs' : List Tensor4}
    (h : xs.map Tensor4.shape = xs'.map Tensor4.shape) :
    (pySum xs).map pvShape = (pySum xs').map pvShape := by
  cases xs with
  | nil =>
    cases xs' with
    | nil => rfl
    | cons y' ys' => cases h
  | cons y ys =>
    cases xs' with
    | nil => cases h
    | cons y' ys' =>
      obtain ⟨hy, hys⟩ :
          y.shape = y'.shape ∧ ys.map Tensor4.shape = ys'.map Tensor4.shape := by
        simpa using h
      rw [pySum, pySum]
      have hf := foldlM_addT_shape_congr hy hys
      cases hf1 : List.foldlM addT y ys with
      | none =>
        rw [hf1] at hf
        cases hf2 : List.foldlM addT y' ys' with
        | none => rfl
        | some t' => rw [hf2] at hf; cases hf
      | some t =>
        rw [hf1] at hf
        cases hf2 : List.foldlM addT y' ys' with
        | none => rw [hf2] at hf; cases hf
        | some t' =>
          rw [hf2] at hf
          have : t.shape = t'.shape := by simpa using hf
          simp [pvShape, this]

theorem asppForward_shape_congr {m : ASPPModule} {x y : Tensor4}
    (h : x.shape = y.shape) :
    (asppForward m x).map pvShape = (asppForward m y).map pvShape := by
  have hb : (branchOutputs m x).map (List.map Tensor4.shape) =
      (branchOutputs m y).map (List.map Tensor4.shape) :=
    mapOpt_shape_congr (fun cv _ => conv2dApply_shape_congr h)
  cases h1 : branchOutputs m x with
  | none =>
    rw [h1] at hb
    cases h2 : branchOutputs m y with
    | none => simp [asppForward, h1, h2]
    | some ys' => rw [h2] at hb; cases hb
  | some ys =>
    rw [h1] at hb
    cases h2 : branchOutputs m y with
    | none => rw [h2] at hb; cases hb
    | some ys' =>
      rw [h2] at hb
      have hys : ys.map Tensor4.shape = ys'.map Tensor4.shape := by simpa using hb
      simpa [asppForward, h1, h2] using pySum_shape_congr hys

theorem headForward_shape_congr {hd : DeepLabV2Head} {l1 l2 : List Tensor4}
    (h : l1.map Tensor4.shape = l2.map Tensor4.shape) :
    (headForward hd l1).map pvShape = (headForward hd l2).map pvShape := by
  cases hi : hd.backbone_indices.get? 0 with
  | none =>
    simp only [headForward]
    rw [hi]
    rfl
  | some i =>
    have hg : (l1.get? i).map Tensor4.shape = (l2.get? i).map Tensor4.shape := by
      rw [← List.get?_map, ← List.get?_map, h]
    simp only [headForward]
    rw [hi]
    simp only [Option.bind_eq_bind, Option.some_bind]
    cases h1 : l1.get? i with
    | none =>
      rw [h1] at hg
      cases h2 : l2.get? i with
      | none => rfl
      | some x2 => rw [h2] at hg; cases hg
    | some x1 =>
      rw [h1] at hg
      cases h2 : l2.get? i with
      | none => rw [h2] at hg; cases hg
      | some x2 =>
        rw [h2] at hg
        have hx : x1.shape = x2.shape := by simpa using hg
        simp only [Option.some_bind]
        exact asppForward_shape_congr hx

/-! The claims. -/

/-- C3: for every configured dilation ratio, ASPPModule construction
creates one convolution mapping the input channel count to num_classes
output channels with kernel size 3, dilation equal to the ratio, and
padding 0 when the ratio is 1 and the ratio otherwise. -/
theorem aspp_init_conv_configuration
    (ratios : List ℕ) (inCh num_classes : ℕ) (ac : Bool) (df : String)
    (iw : ℕ → ℕ → ℕ → ℕ → ℕ → ℚ) (ib : ℕ → ℕ → ℚ) (k : ℕ)
    (hk : k < ratios.length) :
    (asppInit ratios inCh num_classes ac df iw ib).aspp_blocks.length = ratios.length ∧
    ∃ cv : Conv2D,
      (asppInit ratios inCh num_classes ac df iw ib).aspp_blocks.get? k = some cv ∧
      cv.in_channels = inCh ∧ cv.out_channels = num_classes ∧ cv.kernel_size = 3 ∧
      cv.dilation = ratios.getD k 0 ∧
      cv.padding = (if ratios.getD k 0 = 1 then 0 else ratios.getD k 0) := by
  refine ⟨asppInit_blocks_length ratios inCh num_classes ac df iw ib, ?_⟩
  exact ⟨_, asppInit_blocks_get? inCh num_classes ac df iw ib hk,
    rfl, rfl, rfl, rfl, rfl⟩

/-- Witness for C3: the default ratio set (6, 12, 18, 24) at branch 0. -/
theorem aspp_init_conv_configuration_witness :
    0 < ([6, 12, 18, 24] : List ℕ).length ∧
    ((asppInit [6, 12, 18, 24] 2048 19 false "NCHW" exW exB).aspp_blocks.length =
        ([6, 12, 18, 24] : List ℕ).length ∧
      ∃ cv : Conv2D,
        (asppInit [6, 12, 18, 24] 2048 19 false "NCHW" exW exB).aspp_blocks.get? 0 = some cv ∧
        cv.in_channels = 2048 ∧ cv.out_channels = 19 ∧ cv.kernel_size = 3 ∧
        cv.dilation = ([6, 12, 18, 24] : List ℕ).getD 0 0 ∧
        cv.padding = (if ([6, 12, 18, 24] : List ℕ).getD 0 0 = 1 then 0
          else ([6, 12, 18, 24] : List ℕ).getD 0 0)) :=
  ⟨by decide,
   aspp_init_conv_configuration [6, 12, 18, 24] 2048 19 false "NCHW" exW exB 0 (by decide)⟩

/-- C4: immediately after ASPPModule construction (after the explicit
zeroing loop over the sublayers) every convolution branch has an
identically zero bias vector, whatever the framework's fresh bias was. -/
theorem aspp_init_biases_zero
    (ratios : List ℕ) (inCh outCh : ℕ) (ac : Bool) (df : String)
    (iw : ℕ → ℕ → ℕ → ℕ → ℕ → ℚ) (ib : ℕ → ℕ → ℚ) :
    ∀ cv ∈ (asppInit ratios inCh outCh ac df iw ib).aspp_blocks, ∀ o, cv.bias o = 0 := by
  intro cv hcv o
  simp only [asppInit, List.mem_map] at hcv
  obtain ⟨cv0, _, rfl⟩ := hcv
  rfl

/-- Witness for C4: the first branch of a two-branch module built from
nonzero framework initializers has zero bias. -/
theorem aspp_init_biases_zero_witness :
    ((asppInit [1, 2] 3 4 true "NCHW" exW exB).aspp_blocks.headI ∈
        (asppInit [1, 2] 3 4 true "NCHW" exW exB).aspp_blocks) ∧
    ∀ o, ((asppInit [1, 2] 3 4 true "NCHW" exW exB).aspp_blocks.headI.bias o = 0) :=
  ⟨List.Mem.head _,
   aspp_init_biases_zero [1, 2] 3 4 true "NCHW" exW exB _ (List.Mem.head _)⟩

/-- C5: DeepLabV2Head.forward applies the ASPP module to the feature
map at the first configured backbone index; the other configured
indices and the other feature maps of the list do not affect the
result. -/
theorem head_forward_selects_first_index
    (a : ASPPModule) (i : ℕ) (r1 r2 : List ℕ) (l1 l2 : List Tensor4)
    (hx : l1.get? i = l2.get? i) :
    headForward ⟨a, i :: r1⟩ l1 = (l1.get? i).bind (fun x => asppForward a x) ∧
    headForward ⟨a, i :: r1⟩ l1 = headForward ⟨a, i :: r2⟩ l2 := by
  refine ⟨rfl, ?_⟩
  show (l1.get? i).bind (fun x => asppForward a x) =
    (l2.get? i).bind (fun x => asppForward a x)
  rw [hx]

/-- Witness for C5: index 0 into a one-feature list, with different
trailing indices on the two heads. -/
theorem head_forward_selects_first_index_witness :
    ([exX].get? 0 = [exX].get? 0) ∧
    (headForward ⟨exAspp, 0 :: [7]⟩ [exX] =
        ([exX].get? 0).bind (fun x => asppForward exAspp x) ∧
      headForward ⟨exAspp, 0 :: [7]⟩ [exX] = headForward ⟨exAspp, 0 :: []⟩ [exX]) :=
  ⟨rfl, head_forward_selects_first_index exAspp 0 [7] [] [exX] [exX] rfl⟩

/-- C7: constructing DeepLabV2 with a backbone index that is out of
range for the backbone's per-stage channel list fails at construction
time (the comprehension over backbone.feat_channels raises), with no
retry or recovery. -/
theorem deeplabv2_init_out_of_range_fails
    (num_classes : ℕ) (backbone : Backbone) (idx ratios : List ℕ) (ac : Bool)
    (iw : ℕ → ℕ → ℕ → ℕ → ℕ → ℚ) (ib : ℕ → ℕ → ℚ) (i : ℕ)
    (hi : i ∈ idx) (hrange : backbone.feat_channels.length ≤ i) :
    deepLabV2Init num_classes backbone idx ratios ac iw ib = none := by
  have hnone : backbone.feat_channels.get? i = none := List.get?_eq_none.mpr hrange
  have hmap : mapOpt (fun j => backbone.feat_channels.get? j) idx = none :=
    mapOpt_none hi hnone
  rw [deepLabV2Init_eq, hmap]
  rfl

/-- Witness for C7: index 3 into a one-stage backbone. -/
theorem deeplabv2_init_out_of_range_fails_witness :
    (3 ∈ ([3] : List ℕ)) ∧ (exBackbone.feat_channels.length ≤ 3) ∧
    deepLabV2Init 1 exBackbone [3] [2] false exW exB = none :=
  ⟨by decide, by decide,
   deeplabv2_init_out_of_range_fails 1 exBackbone [3] [2] false exW exB 3
     (by decide) (by decide)⟩

/-- C9: with an empty ratio sequence ASPPModule.forward returns the
Python integer 0 (the sum of the empty branch list), never a tensor. -/
theorem aspp_forward_empty_ratios_yields_int_zero
    (inCh outCh : ℕ) (ac : Bool) (df : String)
    (iw : ℕ → ℕ → ℕ → ℕ → ℕ → ℚ) (ib : ℕ → ℕ → ℚ) (x : Tensor4) :
    asppForward (asppInit [] inCh outCh ac df iw ib) x = some (PyVal.int 0) ∧
    ∀ t : Tensor4,
      asppForward (asppInit [] inCh outCh ac df iw ib) x ≠ some (PyVal.tensor t) := by
  refine ⟨rfl, fun t h => ?_⟩
  have h2 : some (PyVal.int 0) = some (PyVal.tensor t) :=
    (rfl : asppForward (asppInit [] inCh outCh ac df iw ib) x =
      some (PyVal.int 0)).symm.trans h
  exact PyVal.noConfusion (Option.some.inj h2)

/-- C10: ASPPModule.forward never reads the stored align_corners flag:
two modules identical except for that flag produce identical outputs on
every input. -/
theorem aspp_forward_independent_of_align_corners
    (ratios : List ℕ) (inCh outCh : ℕ) (df : String)
    (iw : ℕ → ℕ → ℕ → ℕ → ℕ → ℚ) (ib : ℕ → ℕ → ℚ) (a1 a2 : Bool) (x : Tensor4) :
    asppForward (asppInit ratios inCh outCh a1 df iw ib) x =
      asppForward (asppInit ratios inCh outCh a2 df iw ib) x := rfl

/-- C6: the weight-loading contract — a missing checkpoint file errors,
a structurally incompatible checkpoint errors, and a compatible one
replaces every parameter with the persisted values. -/
theorem load_entire_model_contract (model : StateDict) (file : Option StateDict) :
    (file = none →
      load_entire_model model file =
        Except.error "pretrained model file does not exist") ∧
    (∀ ckpt, file = some ckpt → sdSig ckpt ≠ sdSig model →
      load_entire_model model file =
        Except.error "checkpoint does not match the model structurally") ∧
    (∀ ckpt, file = some ckpt → sdSig ckpt = sdSig model →
      load_entire_model model file = Except.ok ckpt) := by
  refine ⟨fun h => ?_, fun ckpt h hne => ?_, fun ckpt h he => ?_⟩
  · subst h; rfl
  · subst h
    simp only [load_entire_model]
    rw [if_neg hne]
  · subst h
    simp only [load_entire_model]
    rw [if_pos he]

/-- Witness for C6: loading a compatible checkpoint with other values
replaces all parameters. -/
theorem load_entire_model_contract_witness :
    (some exCkpt = some exCkpt) ∧ (sdSig exCkpt = sdSig exSD) ∧
    load_entire_model exSD (some exCkpt) = Except.ok exCkpt :=
  ⟨rfl, by decide,
   (load_entire_model_contract exSD (some exCkpt)).2.2 exCkpt rfl (by decide)⟩

/-- Destructuring of a successful DeepLabV2.forward call: the head
selected a feature, ASPP produced a tensor, and the output is that
tensor bilinearly upsampled to the input's spatial size. -/
theorem modelForward_some_elim {M : DeepLabV2} {x : Tensor4} {out : List Tensor4}
    (hf : modelForward M x = some out) :
    ∃ i0 x' t0,
      M.head.backbone_indices.get? 0 = some i0 ∧
      (M.backbone.forward x).get? i0 = some x' ∧
      asppForward M.head.aspp x' = some (PyVal.tensor t0) ∧
      out = [interp t0 x.shape.h x.shape.w M.align_corners] := by
  rw [modelForward_eq, headForward_eq] at hf
  cases hi0 : M.head.backbone_indices.get? 0 with
  | none =>
    rw [hi0] at hf
    exact Option.noConfusion hf
  | some i0 =>
    rw [hi0] at hf
    simp only [Option.some_bind] at hf
    cases hxi : (M.backbone.forward x).get? i0 with
    | none =>
      rw [hxi] at hf
      exact Option.noConfusion hf
    | some x' =>
      rw [hxi] at hf
      simp only [Option.some_bind] at hf
      cases hv : asppForward M.head.aspp x' with
      | none =>
        rw [hv] at hf
        exact Option.noConfusion hf
      | some v =>
        rw [hv] at hf
        simp only [Option.some_bind] at hf
        cases v with
        | int z => exact Option.noConfusion hf
        | tensor t0 =>
          injection hf with hf2
          exact ⟨i0, x', t0, rfl, hxi, hv, hf2.symm⟩

/-- A successfully constructed DeepLabV2 carries an ASPP module built
over the first selected backbone channel count with num_classes output
channels. -/
theorem deepLabV2Init_some_aspp {num_classes : ℕ} {backbone : Backbone}
    {idx ratios : List ℕ} {ac : Bool}
    {iw : ℕ → ℕ → ℕ → ℕ → ℕ → ℚ} {ib : ℕ → ℕ → ℚ} {M : DeepLabV2}
    (hM : deepLabV2Init num_classes backbone idx ratios ac iw ib = some M) :
    ∃ c0, M.head.aspp = asppInit ratios c0 num_classes ac "NCHW" iw ib := by
  rw [deepLabV2Init_eq] at hM
  cases hch : mapOpt (fun i => backbone.feat_channels.get? i) idx with
  | none =>
    rw [hch] at hM
    exact Option.noConfusion hM
  | some channels =>
    rw [hch] at hM
    simp only [Option.some_bind] at hM
    rw [headInit_eq] at hM
    cases hc0 : channels.get? 0 with
    | none =>
      rw [hc0] at hM
      exact Option.noConfusion hM
    | some c0 =>
      rw [hc0] at hM
      simp only [Option.some_bind] at hM
      injection hM with hM2
      exact ⟨c0, by rw [← hM2]⟩

/-- C1: a successful forward pass of a successfully constructed
DeepLabV2 model, over a backbone whose features preserve the batch
extent, returns exactly one tensor, of shape
(batch, num_classes, input height, input width). -/
theorem deeplabv2_forward_output_shape
    (num_classes : ℕ) (backbone : Backbone) (idx ratios : List ℕ) (ac : Bool)
    (iw : ℕ → ℕ → ℕ → ℕ → ℕ → ℚ) (ib : ℕ → ℕ → ℚ)
    (M : DeepLabV2) (x : Tensor4) (out : List Tensor4)
    (hM : deepLabV2Init num_classes backbone idx ratios ac iw ib = some M)
    (hb : ∀ f ∈ M.backbone.forward x, f.shape.n = x.shape.n)
    (hf : modelForward M x = some out) :
    ∃ t, out = [t] ∧
      t.shape = ⟨x.shape.n, num_classes, x.shape.h, x.shape.w⟩ := by
  obtain ⟨c0, haspp⟩ := deepLabV2Init_some_aspp hM
  obtain ⟨i0, x', t0, hi0, hxi, hasp, hout⟩ := modelForward_some_elim hf
  rw [haspp, asppForward_eq] at hasp
  cases hys : branchOutputs (asppInit ratios c0 num_classes ac "NCHW" iw ib) x' with
  | none =>
    rw [hys] at hasp
    exact Option.noConfusion hasp
  | some ys =>
    rw [hys] at hasp
    have hps : pySum ys = some (PyVal.tensor t0) := hasp
    obtain ⟨hne, hsh, _⟩ := pySum_tensor_spec hps
    cases ys with
    | nil => exact absurd rfl hne
    | cons y0 ys' =>
      subst hout
      refine ⟨interp t0 x.shape.h x.shape.w M.align_corners, rfl, ?_⟩
      have hxn : x'.shape.n = x.shape.n := hb x' (List.get?_mem hxi)
      have hlen : 0 < ratios.length := by
        have h1 := (mapOpt_length hys).trans
          (asppInit_blocks_length ratios c0 num_classes ac "NCHW" iw ib)
        rw [← h1]
        exact Nat.succ_pos _
      have hcv0 := asppInit_blocks_get? c0 num_classes ac "NCHW" iw ib hlen
      have hy0 := mapOpt_get? hys 0 _ hcv0
      have hconv := hy0.symm.trans
        (rfl : ((y0 :: ys' : List Tensor4).get? 0) = some y0)
      have hint : (interp t0 x.shape.h x.shape.w M.align_corners).shape
          = ⟨t0.shape.n, t0.shape.c, x.shape.h, x.shape.w⟩ := rfl
      have ht0 : t0.shape = y0.shape := hsh
      rw [hint, ht0, conv2dApply_some_shape hconv]
      simp [convOutShape, hxn]

/-- The example backbone preserves the batch extent of its input. -/
theorem exM_backbone_batch : ∀ f ∈ exM.backbone.forward exX, f.shape.n = exX.shape.n := by
  intro f hf
  have hfx : f = exX := by simpa [exM, exBackbone] using hf
  rw [hfx]

/-- Witness for C1: the example model on a 1 by 1 by 3 by 3 input. -/
theorem deeplabv2_forward_output_shape_witness :
    (deepLabV2Init 1 exBackbone [0] [2] false exW exB = some exM) ∧
    (∀ f ∈ exM.backbone.forward exX, f.shape.n = exX.shape.n) ∧
    (modelForward exM exX = some exOut) ∧
    ∃ t, exOut = [t] ∧
      t.shape = ⟨exX.shape.n, 1, exX.shape.h, exX.shape.w⟩ :=
  ⟨rfl, exM_backbone_batch, (@Option.some_get _ (modelForward exM exX) rfl).symm,
   deeplabv2_forward_output_shape 1 exBackbone [0] [2] false exW exB exM exX exOut
     rfl exM_backbone_batch ((@Option.some_get _ (modelForward exM exX) rfl).symm)⟩

/-- C2: ASPPModule.forward is the elementwise sum of the independent
convolution branch outputs: one branch per configured ratio, each
branch the configured convolution applied to the same input, the
output's shape the (uninterpolated) shape of the first branch output,
and every entry the sum of the branch entries. -/
theorem aspp_forward_sums_branches
    (ratios : List ℕ) (inCh outCh : ℕ) (ac : Bool) (df : String)
    (iw : ℕ → ℕ → ℕ → ℕ → ℕ → ℚ) (ib : ℕ → ℕ → ℚ) (x : Tensor4)
    (ys : List Tensor4) (t : Tensor4)
    (hys : branchOutputs (asppInit ratios inCh outCh ac df iw ib) x = some ys)
    (ht : pySum ys = some (PyVal.tensor t)) :
    asppForward (asppInit ratios inCh outCh ac df iw ib) x = some (PyVal.tensor t) ∧
    ys.length = ratios.length ∧
    (∀ k cv, (asppInit ratios inCh outCh ac df iw ib).aspp_blocks.get? k = some cv →
      ys.get? k = conv2dApply cv x) ∧
    t.shape = ys.headI.shape ∧
    (∀ b c i j, t.data b c i j = (ys.map (fun y => y.data b c i j)).sum) := by
  obtain ⟨hne, hsh, hdata⟩ := pySum_tensor_spec ht
  refine ⟨?_, ?_, ?_, hsh, hdata⟩
  · rw [asppForward_eq, hys]
    exact ht
  · exact (mapOpt_length hys).trans
      (asppInit_blocks_length ratios inCh outCh ac df iw ib)
  · intro k cv hcv
    exact mapOpt_get? hys k cv hcv

/-- Witness for C2: the single ratio-2 branch of exAspp on exX. -/
theorem aspp_forward_sums_branches_witness :
    (branchOutputs exAspp exX = some exYs) ∧
    (pySum exYs = some (PyVal.tensor exYs.headI)) ∧
    (asppForward exAspp exX = some (PyVal.tensor exYs.headI) ∧
      exYs.length = ([2] : List ℕ).length ∧
      (∀ k cv, exAspp.aspp_blocks.get? k = some cv →
        exYs.get? k = conv2dApply cv exX) ∧
      exYs.headI.shape = exYs.headI.shape ∧
      (∀ b c i j, exYs.headI.data b c i j =
        (exYs.map (fun y => y.data b c i j)).sum)) :=
  ⟨(@Option.some_get _ (branchOutputs exAspp exX) rfl).symm, rfl,
   aspp_forward_sums_branches [2] 1 1 false "NCHW" exW exB exX exYs exYs.headI
     ((@Option.some_get _ (branchOutputs exAspp exX) rfl).symm) rfl⟩

/-- C8: DeepLabV2.forward is deterministic in the model parameters and
the input, and for a backbone whose output feature shapes depend only
on the input shape, success and all output shapes depend only on the
input shape, never on the tensor data. -/
theorem deeplabv2_forward_pure_and_shape_dependent
    (M : DeepLabV2) (x y : Tensor4)
    (hsh : x.shape = y.shape)
    (hbsh : (M.backbone.forward x).map Tensor4.shape =
      (M.backbone.forward y).map Tensor4.shape) :
    (∀ M2 x2, M2 = M → x2 = x → modelForward M2 x2 = modelForward M x) ∧
    (modelForward M x).isSome = (modelForward M y).isSome ∧
    (modelForward M x).map (List.map Tensor4.shape) =
      (modelForward M y).map (List.map Tensor4.shape) := by
  have hhead := @headForward_shape_congr M.head _ _ hbsh
  have hmap : (modelForward M x).map (List.map Tensor4.shape) =
      (modelForward M y).map (List.map Tensor4.shape) := by
    rw [modelForward_eq, modelForward_eq]
    cases h1 : headForward M.head (M.backbone.forward x) with
    | none =>
      rw [h1] at hhead
      cases h2 : headForward M.head (M.backbone.forward y) with
      | none => rfl
      | some v2 => rw [h2] at hhead; exact Option.noConfusion hhead
    | some v1 =>
      rw [h1] at hhead
      cases h2 : headForward M.head (M.backbone.forward y) with
      | none => rw [h2] at hhead; exact Option.noConfusion hhead
      | some v2 =>
        rw [h2] at hhead
        have hpv : pvShape v1 = pvShape v2 := by simpa using hhead
        simp only [Option.some_bind]
        cases v1 with
        | int z1 =>
          cases v2 with
          | int z2 => rfl
          | tensor t2 => exact Option.noConfusion hpv
        | tensor t1 =>
          cases v2 with
          | int z2 => exact Option.noConfusion hpv
          | tensor t2 =>
            have ht : t1.shape = t2.shape := by simpa [pvShape] using hpv
            simp [interp, ht, hsh]
  refine ⟨fun M2 x2 h1 h2 => by rw [h1, h2], ?_, hmap⟩
  have h3 := congrArg Option.isSome hmap
  simpa using h3

/-- Witness for C8: the example model on two same-shaped inputs with
different data. -/
theorem deeplabv2_forward_pure_and_shape_dependent_witness :
    (exX.shape = exY.shape) ∧
    ((exM.backbone.forward exX).map Tensor4.shape =
      (exM.backbone.forward exY).map Tensor4.shape) ∧
    ((∀ M2 x2, M2 = exM → x2 = exX → modelForward M2 x2 = modelForward exM exX) ∧
      (modelForward exM exX).isSome = (modelForward exM exY).isSome ∧
      (modelForward exM exX).map (List.map Tensor4.shape) =
        (modelForward exM exY).map (List.map Tensor4.shape)) :=
  ⟨rfl, rfl, deeplabv2_forward_pure_and_shape_dependent exM exX exY rfl rfl⟩

/-- Witness for C9: an empty-ratio module over exX returns the int 0. -/
theorem aspp_forward_empty_ratios_yields_int_zero_witness :
    asppForward (asppInit [] 1 1 false "NCHW" exW exB) exX = some (PyVal.int 0) ∧
    ∀ t : Tensor4,
      asppForward (asppInit [] 1 1 false "NCHW" exW exB) exX ≠ some (PyVal.tensor t) :=
  aspp_forward_empty_ratios_yields_int_zero 1 1 false "NCHW" exW exB exX

/-- Witness for C10: flipping align_corners on the example module does
not change the forward output on exX. -/
theorem aspp_forward_independent_of_align_corners_witness :
    asppForward (asppInit [2] 1 1 true "NCHW" exW exB) exX =
      asppForward (asppInit [2] 1 1 false "NCHW" exW exB) exX :=
  aspp_forward_independent_of_align_corners [2] 1 1 "NCHW" exW exB true false exX
